import Mathlib

/-!
Shallow embedding of the webhook-processing pipeline of `src/server.js`
(fortunebackend).  Pure data is modelled directly; the MongoDB collections
become Lean lists threaded through the handler; JavaScript exceptions become
an explicit `Except` whose error value carries the store state at the moment
of the throw (MongoDB writes already performed are kept, matching the absence
of any rollback in the source).  JS `BigInt` arithmetic on decimal strings is
modelled by an executable decimal printer/parser over `Int`.
-/

namespace FortuneBackend

/-! ### Decimal strings (JS BigInt on decimal strings)

`natToDec`/`intToDec` model `BigInt.prototype.toString` (canonical decimal,
leading `-` for negatives); `parseBigInt?` models the `BigInt(string)`
conversion restricted to the decimal forms that actually occur in this system
(optional leading minus followed by digits; the empty string converts to 0 as
in JS).  `BigInt(s)` throwing a `SyntaxError` is modelled by `none`. -/

def digitChar (d : Nat) : Char :=
  match d with
  | 0 => '0' | 1 => '1' | 2 => '2' | 3 => '3' | 4 => '4'
  | 5 => '5' | 6 => '6' | 7 => '7' | 8 => '8' | 9 => '9'
  | _ => '*'

def digitVal (c : Char) : Nat := c.toNat - 48

/-- Fuel-driven digit expansion (structural recursion keeps it
kernel-computable); the fuel is always sufficient at the use below. -/
def decDigitsAux : Nat → Nat → List Char
  | 0, _ => []
  | fuel + 1, n =>
    if n < 10 then [digitChar n]
    else decDigitsAux fuel (n / 10) ++ [digitChar (n % 10)]

/-- Most-significant-first decimal digits of a natural number. -/
def decDigits (n : Nat) : List Char := decDigitsAux (n + 1) n

def natToDec (n : Nat) : String := ⟨decDigits n⟩

/-- JS `BigInt.prototype.toString`. -/
def intToDec (i : Int) : String :=
  if i < 0 then ⟨'-' :: decDigits i.natAbs⟩ else ⟨decDigits i.natAbs⟩

def digitsVal (cs : List Char) : Nat :=
  cs.foldl (fun acc c => 10 * acc + digitVal c) 0

/-- JS `BigInt(string)` on the decimal fragment; `none` models the thrown
`SyntaxError` (hex/whitespace forms, unused by this system, are out of the
model). -/
def parseBigInt? (s : String) : Option Int :=
  let cs := s.data
  if cs.isEmpty then some 0
  else if cs.head? = some '-' then
    let rest := cs.tail
    if !rest.isEmpty && rest.all Char.isDigit then some (-(Int.ofNat (digitsVal rest)))
    else none
  else if cs.all Char.isDigit then some (Int.ofNat (digitsVal cs))
  else none

/-! ### Data model (Mongo collections of `server.js` as record lists)

Each Mongo collection is a list of records in insertion order; `findOne`
is first match, `create` appends (failing on a unique-key duplicate, as the
unique indexes declared in the schemas make the insert throw), and `save` on
a fetched document replaces that document in place.  `Date` timestamp fields
(`processedAt`, `timestamp`) carry no information any claim depends on and
are omitted from the records. -/

structure FungibleRec where
  address : String
  balance : String
deriving DecidableEq, Repr

structure HoldingRec where
  tokenId : String
  owner : String
deriving DecidableEq, Repr

structure OpeningRec where
  tokenId : String
  transactionHash : String
  tokenType : String
  opener : String
deriving DecidableEq, Repr

structure LevelRec where
  winAmount : String
  rollNumber : Nat
deriving DecidableEq, Repr

structure MintingRec where
  tokenId : String
  levels : List LevelRec
  rollResult : Option Nat
  payout : Option String
  transactionHash : String
deriving DecidableEq, Repr

/-- The six Mongo-backed stores of the service. -/
structure St where
  erc404Fungible : List FungibleRec
  erc404NFT : List HoldingRec
  erc721Holding : List HoldingRec
  processedTransactions : List String
  openings : List OpeningRec
  mintingDetails : List MintingRec
deriving DecidableEq, Repr

def erc721Address : String := "0xE64Ea2215CD88a5d3cfe764bCEB2c1e3C60ECfC4"

def erc404Address : String := "0x99A8374c5cf5E45151102F367ada3B47F636951c"

def zeroAddress : String := "0x0000000000000000000000000000000000000000"

/-- JS `String.prototype.toLowerCase` on the ASCII range (all strings this
service lowercases are hex addresses). -/
def charToLower (c : Char) : Char :=
  if c.toNat ≥ 65 ∧ c.toNat ≤ 90 then Char.ofNat (c.toNat + 32) else c

def strToLower (s : String) : String := ⟨s.data.map charToLower⟩

/-- JS string truthiness for optional payload fields: `undefined` and the
empty string are falsy. -/
def truthyStr : Option String → Option String
  | some s => if s == "" then none else some s
  | none => none

/-- Mongoose `save` on a document fetched by key `k` (replace the first
record with that key), or insert when the document is new (no record with
that key exists). -/
def saveBy (key : α → String) (k : String) (r : α) : List α → List α
  | [] => [r]
  | x :: xs => if key x == k then r :: xs else x :: saveBy key k r xs

/-! ### Webhook payload -/

structure NftTransfer where
  transactionHash : Option String
  contract : Option String
  tokenId : Option String
  from_ : Option String
  to_ : Option String
deriving DecidableEq, Repr

structure Erc20Transfer where
  transactionHash : Option String
  contract : Option String
  from_ : Option String
  to_ : Option String
  value : Option String
deriving DecidableEq, Repr

/-- One topic slot of a raw log.  A real topic is a 32-byte word; the
constructors tag its interpretation (event-signature hash, indexed address,
indexed uint256), with distinct constructors standing for the distinct byte
patterns the three kinds have in practice. -/
inductive Topic where
  | sig (s : String)
  | addr (a : String)
  | word (n : Nat)
deriving DecidableEq, Repr

/-- A raw log entry of the payload.  `data` is the ABI-encoded data blob as
its sequence of 256-bit words. -/
structure RawLog where
  address : Option String
  data : List Nat
  topic0 : Option String
  topic1 : Option Topic
  topic2 : Option Topic
  topic3 : Option Topic
deriving DecidableEq, Repr

/-- Webhook request body.  `block` is never read by the handler and is
omitted; an absent transfer array behaves exactly like an empty one in every
use site (`?.[0]` and `&& length > 0`), so both are modelled as `[]`. -/
structure Payload where
  confirmed : Bool
  nftTransfers : List NftTransfer
  erc20Transfers : List Erc20Transfer
  logs : List RawLog
deriving DecidableEq, Repr

/-! ### updateERC404FungibleBalance (server.js lines 340-355) -/

/-- Helper `updateERC404FungibleBalance(address, amount, isAddition)`: find-or-new
the balance record, run BigInt arithmetic on the decimal strings, save.
`error` models a thrown `SyntaxError` from a `BigInt` conversion, which
happens before any write. -/
def updateERC404FungibleBalance (recs : List FungibleRec) (address amount : String)
    (isAddition : Bool) : Except Unit (List FungibleRec) :=
  let bal := match recs.find? (fun r => r.address == address) with
    | some b => b
    | none => ⟨address, "0"⟩
  match parseBigInt? bal.balance with
  | none => .error ()
  | some currentBalance =>
    match parseBigInt? amount with
    | none => .error ()
    | some amountBigInt =>
      let newBalance := intToDec (if isAddition then currentBalance + amountBigInt
        else currentBalance - amountBigInt)
      .ok (saveBy (fun r => r.address) address { bal with balance := newBalance } recs)

/-! ### NFT transfer application (server.js lines 414-430) -/

/-- One NFT-holding update: `findOneAndDelete` when `from` is not the zero
address, then `create`.  The `error` case is the unique-index violation the
`create` raises when a record with the tokenId still exists; it carries the
list after the delete (that write is not rolled back). -/
def applyHoldingTransfer (tokenId from_ to_ : String) (holds : List HoldingRec) :
    Except (List HoldingRec) (List HoldingRec) :=
  let holds1 := if from_ == zeroAddress then holds
    else holds.eraseP (fun h => h.tokenId == tokenId)
  if holds1.any (fun h => h.tokenId == tokenId) then .error holds1
  else .ok (holds1 ++ [⟨tokenId, strToLower to_⟩])

/-- The `nftTransfers` loop (lines 392-432), threading the
`processedTokenIds` set.  Only the ERC404 branch records the tokenId in the
set; a thrown unique-index error aborts the loop with the state written so
far. -/
def processNftTransfers : List NftTransfer → List String → St → Except St St
  | [], _, s => .ok s
  | t :: rest, processedTokenIds, s =>
    match truthyStr t.contract, truthyStr t.tokenId, truthyStr t.from_, truthyStr t.to_ with
    | some contract, some tokenId, some from_, some to_ =>
      if processedTokenIds.contains tokenId then
        processNftTransfers rest processedTokenIds s
      else
        let isERC721 := strToLower contract == strToLower erc721Address
        let isERC404 := strToLower contract == strToLower erc404Address
        if isERC721 then
          match applyHoldingTransfer tokenId from_ to_ s.erc721Holding with
          | .error hs => .error { s with erc721Holding := hs }
          | .ok hs => processNftTransfers rest processedTokenIds { s with erc721Holding := hs }
        else if isERC404 then
          match applyHoldingTransfer tokenId from_ to_ s.erc404NFT with
          | .error hs => .error { s with erc404NFT := hs }
          | .ok hs =>
            processNftTransfers rest (tokenId :: processedTokenIds) { s with erc404NFT := hs }
        else
          processNftTransfers rest processedTokenIds s
    | _, _, _, _ => processNftTransfers rest processedTokenIds s

/-! ### ERC20 transfer loop (server.js lines 435-453) -/

/-- The `erc20Transfers` loop: for transfers on the ERC404 contract,
subtract from `from` (unless it is the zero address) and add to `to`.  A
BigInt conversion error propagates to the top-level catch carrying the state
already written. -/
def processErc20Transfers : List Erc20Transfer → St → Except St St
  | [], s => .ok s
  | t :: rest, s =>
    match truthyStr t.contract, truthyStr t.from_, truthyStr t.to_, truthyStr t.value with
    | some contract, some from_, some to_, some value =>
      if strToLower contract == strToLower erc404Address then
        match (if from_ == zeroAddress then Except.ok s.erc404Fungible
          else updateERC404FungibleBalance s.erc404Fungible (strToLower from_) value false) with
        | .error _ => .error s
        | .ok recs1 =>
          match updateERC404FungibleBalance recs1 (strToLower to_) value true with
          | .error _ => .error { s with erc404Fungible := recs1 }
          | .ok recs2 => processErc20Transfers rest { s with erc404Fungible := recs2 }
      else processErc20Transfers rest s
    | _, _, _, _ => processErc20Transfers rest s

/-! ### Event decoding (server.js lines 12-45 and 477-538)

The `parseLog` of each `ethers` interface succeeds exactly when the first topic
equals the signature hash of that event, the topic count matches the indexed
parameter count, and the data blob has the data layout of the event; any mismatch
throws, which the decode chain turns into trying the next shape.  The
signature-hash constants are represented by the six distinct signature
strings. -/

def sigTicketMinted : String :=
  "TicketMinted(address,uint256,bool,(uint256,uint256,uint256)[])"

def sigTicketOpeningInitiated : String := "TicketOpeningInitiated(uint256,address)"

def sigTicketResolved : String := "TicketResolved(uint256,uint256,uint256)"

def sigRewardPaid : String := "RewardPaid(address,uint256,uint256)"

def sigPoolDeposited : String := "PoolDeposited(address,uint256)"

def sigPoolWithdrawn : String := "PoolWithdrawn(address,uint256)"

/-- One entry of the `levels` tuple array of `TicketMinted`, in ABI order. -/
structure MintLevel where
  rollNumber : Nat
  winPercentage : Nat
  winAmount : Nat
deriving DecidableEq, Repr

inductive Decoded where
  | ticketMinted (to_ : String) (tokenId : Nat) (isETHVersion : Bool) (levels : List MintLevel)
  | ticketOpeningInitiated (tokenId : Nat) (opener : String)
  | ticketResolved (tokenId : Nat) (rollResult : Nat) (winAmount : Nat)
  | rewardPaid (winner : String) (tokenId : Nat) (amount : Nat)
  | poolDeposited (depositor : String) (amount : Nat)
  | poolWithdrawn (withdrawer : String) (amount : Nat)
deriving DecidableEq, Repr

def chunkLevels : List Nat → List MintLevel
  | r :: w :: a :: rest => ⟨r, w, a⟩ :: chunkLevels rest
  | _ => []

def flattenLevels : List MintLevel → List Nat
  | [] => []
  | l :: rest => l.rollNumber :: l.winPercentage :: l.winAmount :: flattenLevels rest

/-- ABI layout of the `TicketMinted` data blob: the `bool` word, the offset
word (0x40, two head words) of the dynamic levels array, its length word,
then three words per level. -/
def decodeTicketMintedData (d : List Nat) : Option (Bool × List MintLevel) :=
  match d with
  | b :: off :: len :: rest =>
    if (b == 0 || b == 1) && off == 64 && rest.length == 3 * len then
      some (b == 1, chunkLevels rest)
    else none
  | _ => none

def parseLogTicketMinted (topics : List Topic) (data : List Nat) : Option Decoded :=
  match topics with
  | [Topic.sig s, Topic.addr to_, Topic.word tokenId] =>
    if s == sigTicketMinted then
      match decodeTicketMintedData data with
      | some (isETHVersion, levels) => some (.ticketMinted to_ tokenId isETHVersion levels)
      | none => none
    else none
  | _ => none

def parseLogTicketOpeningInitiated (topics : List Topic) (data : List Nat) : Option Decoded :=
  match topics with
  | [Topic.sig s, Topic.word tokenId, Topic.addr opener] =>
    if s == sigTicketOpeningInitiated && data == [] then
      some (.ticketOpeningInitiated tokenId opener)
    else none
  | _ => none

def parseLogTicketResolved (topics : List Topic) (data : List Nat) : Option Decoded :=
  match topics, data with
  | [Topic.sig s, Topic.word tokenId], [rollResult, winAmount] =>
    if s == sigTicketResolved then some (.ticketResolved tokenId rollResult winAmount)
    else none
  | _, _ => none

def parseLogRewardPaid (topics : List Topic) (data : List Nat) : Option Decoded :=
  match topics, data with
  | [Topic.sig s, Topic.addr winner, Topic.word tokenId], [amount] =>
    if s == sigRewardPaid then some (.rewardPaid winner tokenId amount) else none
  | _, _ => none

def parseLogPoolDeposited (topics : List Topic) (data : List Nat) : Option Decoded :=
  match topics, data with
  | [Topic.sig s, Topic.addr depositor], [amount] =>
    if s == sigPoolDeposited then some (.poolDeposited depositor amount) else none
  | _, _ => none

def parseLogPoolWithdrawn (topics : List Topic) (data : List Nat) : Option Decoded :=
  match topics, data with
  | [Topic.sig s, Topic.addr withdrawer], [amount] =>
    if s == sigPoolWithdrawn then some (.poolWithdrawn withdrawer amount) else none
  | _, _ => none

/-- The nested try/catch chain of lines 482-536: the six shapes are tried in
the fixed priority order and the first successful decode wins; `none` is the
`continue` of the innermost catch (unrecognized log). -/
def decodeLog (topics : List Topic) (data : List Nat) : Option (String × Decoded) :=
  match parseLogTicketMinted topics data with
  | some d => some ("TicketMinted", d)
  | none =>
  match parseLogTicketOpeningInitiated topics data with
  | some d => some ("TicketOpeningInitiated", d)
  | none =>
  match parseLogTicketResolved topics data with
  | some d => some ("TicketResolved", d)
  | none =>
  match parseLogRewardPaid topics data with
  | some d => some ("RewardPaid", d)
  | none =>
  match parseLogPoolDeposited topics data with
  | some d => some ("PoolDeposited", d)
  | none =>
  match parseLogPoolWithdrawn topics data with
  | some d => some ("PoolWithdrawn", d)
  | none => none

/-- Topic assembly `[topic0, topic1, topic2, topic3].filter(Boolean)` of the parseLog call
sites: absent slots (and a falsy empty topic0) drop out and later topics
shift forward. -/
def logTopics (l : RawLog) : List Topic :=
  (match l.topic0 with
   | some s => if s == "" then [] else [Topic.sig s]
   | none => []) ++
  (match l.topic1 with | some t => [t] | none => []) ++
  (match l.topic2 with | some t => [t] | none => []) ++
  (match l.topic3 with | some t => [t] | none => [])

/-! ### Per-log processing (server.js lines 457-623) -/

/-- Observable side effects whose order the spec talks about: WebSocket
fan-out (`broadcastUpdate`) and the final `ProcessedTransaction.create`. -/
inductive Effect where
  | broadcast (type_ : String) (tokenId : String)
  | markProcessed (transactionHash : String)
deriving DecidableEq, Repr

/-- Model of `BigNumber.prototype.toNumber` of ethers: throws once the value no
longer fits in a double-exact 53-bit integer. -/
def toNumber? (n : Nat) : Option Nat := if n < 2 ^ 53 then some n else none

/-- The per-level push loop of lines 560-565 (`winAmount.toString()`,
`rollNumber.toNumber()`); an overflow error discards the in-memory document
before it was saved. -/
def levelsToRecs : List MintLevel → Except Unit (List LevelRec)
  | [] => .ok []
  | lv :: rest =>
    match toNumber? lv.rollNumber with
    | none => .error ()
    | some rn =>
      match levelsToRecs rest with
      | .ok rs => .ok (⟨natToDec lv.winAmount, rn⟩ :: rs)
      | .error e => .error e

/-- The body of one iteration of the logs loop, without its catch.  `error`
carries the state at the throw (no store write precedes any throw inside one
iteration). -/
def processLogInner (txHash : String) (l : RawLog) (s : St) : Except St (St × List Effect) :=
  match truthyStr l.topic0 with
  | none => .ok (s, [])
  | some _ =>
    match l.address with
    | none => .error s
    | some address =>
      let isERC721 := strToLower address == strToLower erc721Address
      let isERC404 := strToLower address == strToLower erc404Address
      match (if isERC721 then some "ERC721" else if isERC404 then some "ERC404"
        else none : Option String) with
      | none => .ok (s, [])
      | some tokenType =>
        match decodeLog (logTopics l) l.data with
        | none => .ok (s, [])
        | some (_, ev) =>
          match ev with
          | .ticketMinted _ tokenId _ levels =>
            let tokenIdStr := natToDec tokenId
            let base := match s.mintingDetails.find? (fun r => r.tokenId == tokenIdStr) with
              | some r => r
              | none => ⟨tokenIdStr, [], none, none, txHash⟩
            match levelsToRecs levels with
            | .error _ => .error s
            | .ok newLevels =>
              let updated := { base with levels := base.levels ++ newLevels }
              .ok ({ s with mintingDetails :=
                      saveBy (fun r => r.tokenId) tokenIdStr updated s.mintingDetails },
                   [Effect.broadcast "MINTING_DETAILS_UPDATED" tokenIdStr])
          | .ticketOpeningInitiated tokenId opener =>
            .ok ({ s with openings :=
                    s.openings ++ [⟨natToDec tokenId, txHash, tokenType, strToLower opener⟩] }, [])
          | .ticketResolved tokenId rollResult winAmount =>
            match toNumber? rollResult with
            | none => .error s
            | some rr =>
              let tokenIdStr := natToDec tokenId
              let base := match s.mintingDetails.find? (fun r => r.tokenId == tokenIdStr) with
                | some r => r
                | none => ⟨tokenIdStr, [], none, none, txHash⟩
              let updated :=
                { base with rollResult := some rr, payout := some (natToDec winAmount) }
              .ok ({ s with mintingDetails :=
                      saveBy (fun r => r.tokenId) tokenIdStr updated s.mintingDetails },
                   [Effect.broadcast "MINTING_DETAILS_UPDATED" tokenIdStr])
          | .rewardPaid _ tokenId amount =>
            let tokenIdStr := natToDec tokenId
            let base := match s.mintingDetails.find? (fun r => r.tokenId == tokenIdStr) with
              | some r => r
              | none => ⟨tokenIdStr, [], none, none, txHash⟩
            let updated := { base with rollResult := some 0, payout := some (natToDec amount) }
            .ok ({ s with mintingDetails :=
                    saveBy (fun r => r.tokenId) tokenIdStr updated s.mintingDetails },
                 [Effect.broadcast "MINTING_DETAILS_UPDATED" tokenIdStr])
          | .poolDeposited _ _ => .ok (s, [])
          | .poolWithdrawn _ _ => .ok (s, [])

/-- One logs-loop iteration with its catch (lines 458 and 619-622): an error
is logged and the loop continues with the state written so far. -/
def processLogCaught (txHash : String) (l : RawLog) (s : St) : St × List Effect :=
  match processLogInner txHash l s with
  | .ok r => r
  | .error s' => (s', [])

/-- The logs loop. -/
def processLogs (txHash : String) : List RawLog → St → St × List Effect
  | [], s => (s, [])
  | l :: rest, s =>
    let r1 := processLogCaught txHash l s
    let r2 := processLogs txHash rest r1.1
    (r2.1, r1.2 ++ r2.2)

/-! ### The webhook handler (server.js lines 358-635) -/

structure Response where
  status : Nat
  message : String
deriving DecidableEq, Repr

/-- Transaction-hash extraction of line 368 together with the falsy guard of
line 370: the hash comes only from the first `nftTransfers` entry or, when
that is falsy, the first `erc20Transfers` entry. -/
def firstTxHash (p : Payload) : Option String :=
  match truthyStr (p.nftTransfers.head?.bind (fun t => t.transactionHash)) with
  | some h => some h
  | none => truthyStr (p.erc20Transfers.head?.bind (fun t => t.transactionHash))

/-- The handler body inside the top-level `try`.  `error` models an uncaught
exception reaching the top-level catch, carrying the stores as already
written. -/
def webhookInner (p : Payload) (s : St) : Except St (Response × St × List Effect) :=
  if p.confirmed then .ok (⟨200, "Skipped confirmed transaction"⟩, s, [])
  else
    match firstTxHash p with
    | none => .ok (⟨200, "No transaction hash found"⟩, s, [])
    | some transactionHash =>
      if s.processedTransactions.contains transactionHash then
        .ok (⟨200, "Transaction already processed"⟩, s, [])
      else if erc721Address == "" || erc404Address == "" then
        .ok (⟨200, "Contract addresses not configured"⟩, s, [])
      else
        match processNftTransfers p.nftTransfers [] s with
        | .error s' => .error s'
        | .ok s1 =>
          match processErc20Transfers p.erc20Transfers s1 with
          | .error s' => .error s'
          | .ok s2 =>
            let r := processLogs transactionHash p.logs s2
            if r.1.processedTransactions.contains transactionHash then .error r.1
            else
              .ok (⟨200, "Holdings updated successfully"⟩,
                { r.1 with processedTransactions :=
                    r.1.processedTransactions ++ [transactionHash] },
                r.2 ++ [Effect.markProcessed transactionHash])

/-- Endpoint `POST /webhook`: the top-level catch of lines 631-634 turns any thrown
error into a 200 response, keeping the stores as already written. -/
def webhook (p : Payload) (s : St) : Response × St × List Effect :=
  match webhookInner p s with
  | .ok r => r
  | .error s' => (⟨200, "Error occurred but returning 200 to prevent retries"⟩, s', [])

/-! ### Trace predicates and concrete inputs used by the theorems below -/

def isBroadcastMD : Effect → Bool
  | .broadcast t _ => t == "MINTING_DETAILS_UPDATED"
  | _ => false

def isMarkProcessed : Effect → Bool
  | .markProcessed _ => true
  | _ => false

/-- Claim C8 as a predicate on the effect trace of the handler: every
`MINTING_DETAILS_UPDATED` fan-out happens only after the transaction was
marked processed. -/
def markPrecedesBroadcasts (tr : List Effect) : Prop :=
  ∀ i j : Fin tr.length, isBroadcastMD (tr.get i) = true →
    isMarkProcessed (tr.get j) = true → (j : Nat) < (i : Nat)

def stEmpty : St := ⟨[], [], [], [], [], []⟩

/-- An `nftTransfers` entry with all fields present. -/
def nftEntry (c tid f t : String) : NftTransfer := ⟨some "0xh", some c, some tid, some f, some t⟩

/-- A well-formed `TicketMinted` log for the ERC721 contract. -/
def mintedLog (toA : String) (tokenId bword : Nat) (levels : List MintLevel) : RawLog :=
  ⟨some erc721Address, bword :: 64 :: levels.length :: flattenLevels levels,
   some sigTicketMinted, some (.addr toA), some (.word tokenId), none⟩

/-- A well-formed `TicketResolved` log for the ERC721 contract. -/
def resolvedLog (tokenId roll win : Nat) : RawLog :=
  ⟨some erc721Address, [roll, win], some sigTicketResolved, some (.word tokenId), none, none⟩

/-- A log whose signature matches none of the six decoded shapes. -/
def unrecognizedLog0 : RawLog := ⟨some erc721Address, [], some "0xdead", none, none, none⟩

/-- A payload whose processing broadcasts an update and then records the
transaction: a minting transfer plus a `TicketMinted` log. -/
def cexPayload : Payload :=
  ⟨false, [nftEntry erc404Address "9" zeroAddress "0xB"], [], [mintedLog "0xA" 7 1 []]⟩

/-! ### Theorems -/

theorem decDigitsAux_fuel :
    ∀ n f1 f2, n < f1 → n < f2 → decDigitsAux f1 n = decDigitsAux f2 n := by
  intro n
  induction n using Nat.strong_induction_on with
  | _ n ih =>
    intro f1 f2 h1 h2
    match f1, f2 with
    | g1 + 1, g2 + 1 =>
      simp only [decDigitsAux]
      split
      · rfl
      · next h =>
        have hdiv : n / 10 < n := Nat.div_lt_self (by omega) (by omega)
        rw [ih _ hdiv g1 g2 (by omega) (by omega)]

/-- The recursive unfolding of `decDigits`. -/
theorem decDigits_eq (n : Nat) :
    decDigits n = if n < 10 then [digitChar n]
      else decDigits (n / 10) ++ [digitChar (n % 10)] := by
  show decDigitsAux (n + 1) n = _
  simp only [decDigitsAux]
  split
  · rfl
  · next h =>
    have hdiv : n / 10 < n := Nat.div_lt_self (by omega) (by omega)
    rw [decDigitsAux_fuel (n / 10) n (n / 10 + 1) hdiv (by omega)]
    rfl

theorem digitVal_digitChar {d : Nat} (h : d < 10) : digitVal (digitChar d) = d := by
  interval_cases d <;> decide

theorem isDigit_digitChar {d : Nat} (h : d < 10) : (digitChar d).isDigit = true := by
  interval_cases d <;> decide

theorem decDigits_ne_nil (n : Nat) : decDigits n ≠ [] := by
  rw [decDigits_eq]
  split <;> simp

theorem decDigits_all_digits (n : Nat) : (decDigits n).all Char.isDigit = true := by
  induction n using Nat.strong_induction_on with
  | _ n ih =>
    rw [decDigits_eq]
    split
    · next h => simp [isDigit_digitChar h]
    · next h =>
      have hlt : n / 10 < n := Nat.div_lt_self (by omega) (by omega)
      have hmod : n % 10 < 10 := Nat.mod_lt _ (by omega)
      simp only [List.all_append, Bool.and_eq_true]
      exact ⟨ih _ hlt, by simp [isDigit_digitChar hmod]⟩

theorem digitsVal_append_singleton (cs : List Char) (c : Char) :
    digitsVal (cs ++ [c]) = 10 * digitsVal cs + digitVal c := by
  simp [digitsVal, List.foldl_append]

theorem digitsVal_decDigits (n : Nat) : digitsVal (decDigits n) = n := by
  induction n using Nat.strong_induction_on with
  | _ n ih =>
    rw [decDigits_eq]
    split
    · next h => simp [digitsVal, digitVal_digitChar h]
    · next h =>
      have hlt : n / 10 < n := Nat.div_lt_self (by omega) (by omega)
      have hmod : n % 10 < 10 := Nat.mod_lt _ (by omega)
      rw [digitsVal_append_singleton, ih _ hlt, digitVal_digitChar hmod]
      omega

theorem head_decDigits_isDigit (n : Nat) :
    ∀ c, (decDigits n).head? = some c → c.isDigit = true := by
  intro c hc
  have hall := decDigits_all_digits n
  rw [List.all_eq_true] at hall
  exact hall c (List.mem_of_mem_head? hc)

theorem head_decDigits_ne_minus (n : Nat) : (decDigits n).head? ≠ some '-' := by
  intro h
  have := head_decDigits_isDigit n '-' h
  simp at this

/-- Print-parse roundtrip: a canonical decimal string converts back to the
same integer, so BigInt arithmetic on system-produced balance strings is
exact. -/
theorem parseBigInt?_intToDec (i : Int) : parseBigInt? (intToDec i) = some i := by
  by_cases hneg : i < 0
  · have habs : 0 < i.natAbs := by
      have : i ≠ 0 := by omega
      exact Int.natAbs_pos.mpr this
    simp only [intToDec, if_pos hneg, parseBigInt?]
    have hne := decDigits_ne_nil i.natAbs
    have hall := decDigits_all_digits i.natAbs
    simp only [List.isEmpty_cons, Bool.false_eq_true, if_false, List.head?_cons,
      List.tail_cons, if_true]
    rw [if_pos (by simp [hne, hall, List.isEmpty_iff])]
    rw [digitsVal_decDigits]
    simp only [Int.ofNat_eq_natCast]
    congr 1
    omega
  · simp only [intToDec, if_neg hneg, parseBigInt?]
    have hne := decDigits_ne_nil i.natAbs
    have hall := decDigits_all_digits i.natAbs
    rw [if_neg (by simp [List.isEmpty_iff, hne])]
    rw [if_neg (head_decDigits_ne_minus i.natAbs)]
    rw [if_pos hall, digitsVal_decDigits]
    simp only [Int.ofNat_eq_natCast]
    congr 1
    omega

/-! ### Helper lemmas on the store primitives -/

theorem find?_append_of_none {α : Type} {p : α → Bool} {l1 l2 : List α}
    (h : l1.find? p = none) : (l1 ++ l2).find? p = l2.find? p := by
  induction l1 with
  | nil => rfl
  | cons x xs ih =>
    rw [List.find?_eq_none] at h
    have hx : p x = false := by
      have := h x (by simp)
      simp at this
      exact this
    have hxs : xs.find? p = none := by
      rw [List.find?_eq_none]
      intro a ha
      exact h a (by simp [ha])
    simp only [List.cons_append, List.find?_cons, hx]
    exact ih hxs

/-- A fresh record is appended when no record with its key exists. -/
theorem saveBy_of_find?_none {α : Type} {key : α → String} {k : String} {r : α}
    {recs : List α} (h : recs.find? (fun x => key x == k) = none) :
    saveBy key k r recs = recs ++ [r] := by
  induction recs with
  | nil => rfl
  | cons x xs ih =>
    rw [List.find?_eq_none] at h
    have hx : (key x == k) = false := by
      have := h x (by simp)
      simp_all
    have hxs : xs.find? (fun x => key x == k) = none := by
      rw [List.find?_eq_none]
      intro a ha
      exact h a (by simp [ha])
    simp only [saveBy, hx, Bool.false_eq_true, if_false, List.cons_append]
    rw [ih hxs]

/-- The function `saveBy` skips over a prefix containing no record with the key. -/
theorem saveBy_append_of_none {α : Type} {key : α → String} {k : String} {r : α}
    {l1 l2 : List α} (h : l1.find? (fun x => key x == k) = none) :
    saveBy key k r (l1 ++ l2) = l1 ++ saveBy key k r l2 := by
  induction l1 with
  | nil => rfl
  | cons x xs ih =>
    rw [List.find?_eq_none] at h
    have hx : (key x == k) = false := by
      have := h x (by simp)
      simp_all
    have hxs : xs.find? (fun x => key x == k) = none := by
      rw [List.find?_eq_none]
      intro a ha
      exact h a (by simp [ha])
    simp only [List.cons_append, saveBy, hx, Bool.false_eq_true, if_false]
    rw [show xs.append l2 = xs ++ l2 from rfl, ih hxs]

/-- Records matched by no record of the list filter to the empty list. -/
theorem filter_eq_nil_of_find?_none {α : Type} {p : α → Bool} {l : List α}
    (h : l.find? p = none) : l.filter p = [] := by
  rw [List.find?_eq_none] at h
  rw [List.filter_eq_nil_iff]
  exact fun a ha => by simpa using h a ha

theorem countP_eraseP_eq_zero {α : Type} {p : α → Bool} {l : List α}
    (h : l.countP p ≤ 1) : (l.eraseP p).countP p = 0 := by
  induction l with
  | nil => rfl
  | cons x xs ih =>
    by_cases hx : p x = true
    · rw [List.eraseP_cons_of_pos hx]
      rw [List.countP_cons, hx] at h
      simp only [if_pos trivial] at h
      have : xs.countP p = 0 := by omega
      exact this
    · have hx' : p x = false := by simp_all
      rw [List.eraseP_cons_of_neg (by simp [hx'])]
      rw [List.countP_cons, hx'] at h
      simp only [Bool.false_eq_true, if_false, Nat.add_zero] at h
      rw [List.countP_cons, hx']
      simp only [Bool.false_eq_true, if_false, Nat.add_zero]
      exact ih h

theorem any_eq_false_of_countP_eq_zero {α : Type} {p : α → Bool} {l : List α}
    (h : l.countP p = 0) : l.any p = false := by
  rw [List.countP_eq_zero] at h
  simp only [List.any_eq_false]
  exact fun a ha => by simpa using h a ha

theorem countP_eq_zero_of_find?_none {α : Type} {p : α → Bool} {l : List α}
    (h : l.find? p = none) : l.countP p = 0 := by
  rw [List.find?_eq_none] at h
  rw [List.countP_eq_zero]
  exact fun a ha => by simpa using h a ha

theorem find?_saveBy_self {α : Type} {key : α → String} {k : String} {r : α}
    (recs : List α) (hk : (key r == k) = true) :
    (saveBy key k r recs).find? (fun x => key x == k) = some r := by
  induction recs with
  | nil => simp [saveBy, List.find?, hk]
  | cons x xs ih =>
    by_cases hx : (key x == k) = true
    · simp [saveBy, hx, List.find?_cons, hk]
    · have hx' : (key x == k) = false := by simp_all
      simp [saveBy, hx', List.find?_cons, ih]

theorem filter_eq_nil_of_countP_eq_zero {α : Type} {p : α → Bool} {l : List α}
    (h : l.countP p = 0) : l.filter p = [] := by
  rw [List.countP_eq_zero] at h
  rw [List.filter_eq_nil_iff]
  exact fun a ha => by simpa using h a ha

theorem countP_eq_zero_of_any_eq_false {α : Type} {p : α → Bool} {l : List α}
    (h : l.any p = false) : l.countP p = 0 := by
  rw [List.any_eq_false] at h
  rw [List.countP_eq_zero]
  exact fun a ha => by simpa using h a ha

/-- Appending a fresh owner record keeps at most one record per tokenId when
none with its tokenId remains. -/
theorem holdings_inv_append {holds1 : List HoldingRec} {tokenId o : String}
    (h0 : holds1.countP (fun h => h.tokenId == tokenId) = 0)
    (hinv : ∀ t, holds1.countP (fun h => h.tokenId == t) ≤ 1) :
    ∀ t, (holds1 ++ [({ tokenId := tokenId, owner := o } : HoldingRec)]).countP
      (fun h => h.tokenId == t) ≤ 1 := by
  intro t
  rw [List.countP_append]
  by_cases ht : (tokenId == t) = true
  · have heq : tokenId = t := by simpa using ht
    subst heq
    simp [List.countP_cons, h0]
  · have ht' : (tokenId == t) = false := by simp_all
    have h2 : List.countP (fun h => h.tokenId == t) [({ tokenId := tokenId, owner := o } : HoldingRec)] = 0 := by
      simp [List.countP_cons, ht']
    rw [h2]
    have := hinv t
    omega

/-- Claim C2: applying `updateERC404FungibleBalance` with `isAddition=true`
and then with `isAddition=false` for the same address and amount restores
the balance record of the address to the exact original decimal string, because
the arithmetic runs on unbounded `BigInt` values parsed from and reprinted
to decimal strings (the stored balance being a canonical BigInt printout, as
every balance the system writes is). -/
theorem claim2_fungible_roundtrip (recs : List FungibleRec) (addr amt : String)
    (bal : FungibleRec) (cur a : Int)
    (hfind : recs.find? (fun r => r.address == addr) = some bal)
    (hparse : parseBigInt? bal.balance = some cur)
    (hcanon : intToDec cur = bal.balance)
    (hamt : parseBigInt? amt = some a) :
    ∃ recs1, updateERC404FungibleBalance recs addr amt true = .ok recs1 ∧
      ∃ recs2, updateERC404FungibleBalance recs1 addr amt false = .ok recs2 ∧
        recs2.find? (fun r => r.address == addr) = some bal := by
  have haddr : (bal.address == addr) = true := by
    have := List.find?_some hfind
    simpa using this
  refine ⟨saveBy (fun r => r.address) addr { bal with balance := intToDec (cur + a) } recs,
    ?_, ?_⟩
  · simp [updateERC404FungibleBalance, hfind, hparse, hamt]
  · have hfind1 : (saveBy (fun r => r.address) addr
        { bal with balance := intToDec (cur + a) } recs).find?
          (fun r => r.address == addr) = some { bal with balance := intToDec (cur + a) } :=
      find?_saveBy_self recs (by simpa using haddr)
    refine ⟨saveBy (fun r => r.address) addr bal
      (saveBy (fun r => r.address) addr { bal with balance := intToDec (cur + a) } recs),
      ?_, ?_⟩
    · have harith : cur + a - a = cur := by ring
      simp [updateERC404FungibleBalance, hfind1, parseBigInt?_intToDec, hamt, harith, hcanon]
    · exact find?_saveBy_self _ (by simpa using haddr)

/-- Claim C2 witness: a concrete add-then-subtract roundtrip on balance
"5" with amount "3". -/
theorem claim2_fungible_roundtrip_witness :
    ∃ recs1, updateERC404FungibleBalance [⟨"0xa", "5"⟩] "0xa" "3" true = .ok recs1 ∧
      ∃ recs2, updateERC404FungibleBalance recs1 "0xa" "3" false = .ok recs2 ∧
        recs2.find? (fun r => r.address == "0xa") = some ⟨"0xa", "5"⟩ :=
  claim2_fungible_roundtrip [⟨"0xa", "5"⟩] "0xa" "3" ⟨"0xa", "5"⟩ 5 3
    (by decide) (by decide) (by decide) (by decide)

/-- Claim C3: an NFT transfer with non-zero `from` (the delete-then-create
of either class branch) leaves exactly one owner record for the tokenId,
owned by the lowercased recipient, with the prior owner record gone; and
every transfer that completes preserves the at-most-one-owner-record-per-
tokenId invariant. -/
theorem claim3_holding_transfer (tokenId from_ to_ : String) (holds : List HoldingRec)
    (hinv : ∀ t, holds.countP (fun h => h.tokenId == t) ≤ 1) :
    (from_ ≠ zeroAddress →
      ∃ holds', applyHoldingTransfer tokenId from_ to_ holds = .ok holds' ∧
        holds'.filter (fun h => h.tokenId == tokenId) = [⟨tokenId, strToLower to_⟩]) ∧
    (∀ holds', applyHoldingTransfer tokenId from_ to_ holds = .ok holds' →
      ∀ t, holds'.countP (fun h => h.tokenId == t) ≤ 1) := by
  constructor
  · intro hfz
    have hfz' : (from_ == zeroAddress) = false := by simpa using hfz
    have h0 : (holds.eraseP fun h => h.tokenId == tokenId).countP
        (fun h => h.tokenId == tokenId) = 0 :=
      countP_eraseP_eq_zero (hinv tokenId)
    have hany : (holds.eraseP fun h => h.tokenId == tokenId).any
        (fun h => h.tokenId == tokenId) = false :=
      any_eq_false_of_countP_eq_zero h0
    refine ⟨(holds.eraseP fun h => h.tokenId == tokenId) ++ [⟨tokenId, strToLower to_⟩], ?_, ?_⟩
    · simp only [applyHoldingTransfer, hfz', Bool.false_eq_true, if_false, hany]
    · rw [List.filter_append, filter_eq_nil_of_countP_eq_zero h0]
      simp
  · intro holds' hok t
    by_cases hfz : (from_ == zeroAddress) = true
    · have hdef : applyHoldingTransfer tokenId from_ to_ holds =
          (if holds.any (fun h => h.tokenId == tokenId) then .error holds
           else .ok (holds ++ [⟨tokenId, strToLower to_⟩])) := by
        simp [applyHoldingTransfer, hfz]
      rw [hdef] at hok
      split at hok
      · exact absurd hok (by simp)
      · next hany =>
        have hany' : holds.any (fun h => h.tokenId == tokenId) = false := by
          simpa using hany
        cases hok
        exact holdings_inv_append (countP_eq_zero_of_any_eq_false hany') hinv t
    · have hfz' : (from_ == zeroAddress) = false := by simp_all
      have hdef : applyHoldingTransfer tokenId from_ to_ holds =
          (if (holds.eraseP fun h => h.tokenId == tokenId).any
              (fun h => h.tokenId == tokenId) then
            .error (holds.eraseP fun h => h.tokenId == tokenId)
           else .ok ((holds.eraseP fun h => h.tokenId == tokenId) ++
             [⟨tokenId, strToLower to_⟩])) := by
        simp [applyHoldingTransfer, hfz']
      rw [hdef] at hok
      split at hok
      · exact absurd hok (by simp)
      · next hany =>
        have hany' : (holds.eraseP fun h => h.tokenId == tokenId).any
            (fun h => h.tokenId == tokenId) = false := by simpa using hany
        cases hok
        refine holdings_inv_append (countP_eq_zero_of_any_eq_false hany') ?_ t
        intro t'
        calc (holds.eraseP fun h => h.tokenId == tokenId).countP
              (fun h => h.tokenId == t')
            ≤ holds.countP (fun h => h.tokenId == t') :=
              (List.eraseP_sublist holds).countP_le _
          _ ≤ 1 := hinv t'

/-- Claim C3 witness: transferring token "1" away from its sole prior owner. -/
theorem claim3_holding_transfer_witness :
    (("0xF" : String) ≠ zeroAddress →
      ∃ holds', applyHoldingTransfer "1" "0xF" "0xA" [⟨"1", "0xz"⟩] = .ok holds' ∧
        holds'.filter (fun h => h.tokenId == "1") = [⟨"1", strToLower "0xA"⟩]) ∧
    (∀ holds', applyHoldingTransfer "1" "0xF" "0xA" [⟨"1", "0xz"⟩] = .ok holds' →
      ∀ t, holds'.countP (fun h => h.tokenId == t) ≤ 1) :=
  claim3_holding_transfer "1" "0xF" "0xA" [⟨"1", "0xz"⟩]
    (fun t => le_trans (List.countP_le_length _) (by decide))

/-! ### Decode chain lemmas (C4) -/

theorem processLogInner_decode_none (txHash : String) (l : RawLog) (s : St)
    (h : decodeLog (logTopics l) l.data = none) :
    processLogInner txHash l s = .ok (s, []) ∨ processLogInner txHash l s = .error s := by
  rcases htop : truthyStr l.topic0 with _ | t0
  · left
    simp [processLogInner, htop]
  · rcases haddr : l.address with _ | a
    · right
      simp [processLogInner, htop, haddr]
    · rcases htt : (if (strToLower a == strToLower erc721Address) = true then some "ERC721"
        else if (strToLower a == strToLower erc404Address) = true then some "ERC404"
        else (none : Option String)) with _ | tt
      · left
        simp only [processLogInner, htop, haddr]
        rw [htt]
      · left
        simp only [processLogInner, htop, haddr]
        rw [htt, h]

/-- Claim C4: the decode chain tries the six shapes in the fixed priority
order and keeps the first success, so a log parsing as `TicketMinted` is
classified as `TicketMinted` and never as a later shape; and a log matching
none of the six shapes is skipped by the per-log processing with no state
change, no effect, and no exception escaping (the per-log step is total). -/
theorem claim4_decode_priority_and_unrecognized :
    (∀ topics data d, parseLogTicketMinted topics data = some d →
      decodeLog topics data = some ("TicketMinted", d)) ∧
    (∀ txHash l s, decodeLog (logTopics l) l.data = none →
      processLogCaught txHash l s = (s, [])) := by
  constructor
  · intro topics data d h
    simp only [decodeLog, h]
  · intro txHash l s h
    rcases processLogInner_decode_none txHash l s h with hi | hi <;>
      simp [processLogCaught, hi]

/-- Claim C4 witness: a concrete `TicketMinted` log decodes as
`TicketMinted`, and a concrete unrecognized log is skipped. -/
theorem claim4_witness :
    decodeLog [Topic.sig sigTicketMinted, Topic.addr "0xA", Topic.word 7] [1, 64, 0] =
      some ("TicketMinted", .ticketMinted "0xA" 7 true []) ∧
    processLogCaught "0xh" unrecognizedLog0 stEmpty = (stEmpty, []) :=
  ⟨claim4_decode_priority_and_unrecognized.1 _ _ _ (by decide),
   claim4_decode_priority_and_unrecognized.2 "0xh" _ stEmpty (by decide)⟩

/-- Claim C7: a payload with `confirmed` true gets the skip response and
mutates nothing (state unchanged, no effects). -/
theorem claim7_confirmed_skip (p : Payload) (s : St) (hc : p.confirmed = true) :
    webhook p s = (⟨200, "Skipped confirmed transaction"⟩, s, []) := by
  simp [webhook, webhookInner, hc]

/-- Claim C7 witness. -/
theorem claim7_confirmed_skip_witness :
    webhook ⟨true, [], [], [mintedLog "0xA" 7 1 []]⟩ stEmpty =
      (⟨200, "Skipped confirmed transaction"⟩, stEmpty, []) :=
  claim7_confirmed_skip _ stEmpty rfl

/-- Claim C10: when neither first transfer entry carries a truthy
transactionHash (in particular when the payload has logs but no transfers),
the handler answers with the no-transaction-hash message and performs no
store mutation and no log processing. -/
theorem claim10_no_txhash (p : Payload) (s : St) (hc : p.confirmed = false)
    (hh : firstTxHash p = none) :
    webhook p s = (⟨200, "No transaction hash found"⟩, s, []) := by
  simp [webhook, webhookInner, hc, hh]

/-- Claim C10 witness: a payload with a decodable log but no transfers. -/
theorem claim10_no_txhash_witness :
    webhook ⟨false, [], [], [mintedLog "0xA" 7 1 []]⟩ stEmpty =
      (⟨200, "No transaction hash found"⟩, stEmpty, []) :=
  claim10_no_txhash _ stEmpty rfl rfl

theorem webhookInner_ok_status (p : Payload) (s : St) (r : Response × St × List Effect)
    (h : webhookInner p s = .ok r) : r.1.status = 200 := by
  simp only [webhookInner] at h
  split at h
  · cases h; rfl
  · split at h
    · cases h; rfl
    · split at h
      · cases h; rfl
      · split at h
        · cases h; rfl
        · split at h
          · cases h
          · split at h
            · cases h
            · split at h
              · cases h
              · cases h; rfl

/-- Claim C9: every execution path of the webhook handler, including the
top-level catch, responds with status 200. -/
theorem claim9_always_200 (p : Payload) (s : St) : (webhook p s).1.status = 200 := by
  rcases heq : webhookInner p s with s' | r
  · simp [webhook, heq]
  · simp only [webhook, heq]
    exact webhookInner_ok_status p s r heq

/-! ### Minted/resolved per-log step lemmas (C5) -/

theorem flattenLevels_length (ls : List MintLevel) :
    (flattenLevels ls).length = 3 * ls.length := by
  induction ls with
  | nil => rfl
  | cons l rest ih =>
    simp [flattenLevels, ih]
    omega

theorem chunkLevels_flattenLevels (ls : List MintLevel) :
    chunkLevels (flattenLevels ls) = ls := by
  induction ls with
  | nil => rfl
  | cons l rest ih =>
    simp [flattenLevels, chunkLevels, ih]

theorem levelsToRecs_ok (ls : List MintLevel) (h : ∀ lv ∈ ls, lv.rollNumber < 2 ^ 53) :
    levelsToRecs ls = .ok (ls.map fun lv => ⟨natToDec lv.winAmount, lv.rollNumber⟩) := by
  induction ls with
  | nil => rfl
  | cons lv rest ih =>
    have hlv : lv.rollNumber < 2 ^ 53 := h lv (by simp)
    have hrest := ih (fun x hx => h x (by simp [hx]))
    simp only [levelsToRecs, toNumber?, hrest]
    rw [if_pos hlv]
    simp

theorem decodeLog_mintedLog (toA : String) (tokenId bword : Nat) (levels : List MintLevel)
    (hb : bword = 0 ∨ bword = 1) :
    decodeLog (logTopics (mintedLog toA tokenId bword levels))
      (mintedLog toA tokenId bword levels).data =
      some ("TicketMinted", .ticketMinted toA tokenId (bword == 1) levels) := by
  have hsig : (sigTicketMinted == "") = false := by decide
  have hlen : ((flattenLevels levels).length == 3 * levels.length) = true := by
    simp [flattenLevels_length]
  rcases hb with rfl | rfl <;>
    simp [decodeLog, parseLogTicketMinted, decodeTicketMintedData, mintedLog, logTopics,
      hsig, hlen, chunkLevels_flattenLevels]

theorem decodeLog_resolvedLog (tokenId roll win : Nat) :
    decodeLog (logTopics (resolvedLog tokenId roll win)) (resolvedLog tokenId roll win).data =
      some ("TicketResolved", .ticketResolved tokenId roll win) := by
  have hsig : (sigTicketResolved == "") = false := by decide
  simp [decodeLog, parseLogTicketMinted, parseLogTicketOpeningInitiated,
    parseLogTicketResolved, resolvedLog, logTopics, hsig]

theorem erc721_self_type :
    (if (strToLower erc721Address == strToLower erc721Address) = true then some "ERC721"
      else if (strToLower erc721Address == strToLower erc404Address) = true then some "ERC404"
      else (none : Option String)) = some "ERC721" := by
  simp

/-- The `TicketMinted` branch creates the MintingDetails record (appended at
the end of the store) when no record for the tokenId exists, converting each
level, and broadcasts one update. -/
theorem processLogCaught_minted (txHash toA : String) (tokenId bword : Nat)
    (levels : List MintLevel) (s : St)
    (hb : bword = 0 ∨ bword = 1)
    (hlv : ∀ lv ∈ levels, lv.rollNumber < 2 ^ 53)
    (hnone : s.mintingDetails.find? (fun r => r.tokenId == natToDec tokenId) = none) :
    processLogCaught txHash (mintedLog toA tokenId bword levels) s =
      ({ s with mintingDetails := s.mintingDetails ++
          [⟨natToDec tokenId, levels.map (fun lv => ⟨natToDec lv.winAmount, lv.rollNumber⟩),
            none, none, txHash⟩] },
       [Effect.broadcast "MINTING_DETAILS_UPDATED" (natToDec tokenId)]) := by
  have htop : truthyStr (mintedLog toA tokenId bword levels).topic0 = some sigTicketMinted := by
    show truthyStr (some sigTicketMinted) = some sigTicketMinted
    decide
  have haddr : (mintedLog toA tokenId bword levels).address = some erc721Address := rfl
  have hsave := @saveBy_of_find?_none MintingRec (fun r => r.tokenId) (natToDec tokenId)
    ⟨natToDec tokenId, levels.map (fun lv => ⟨natToDec lv.winAmount, lv.rollNumber⟩),
      none, none, txHash⟩ s.mintingDetails hnone
  simp only [processLogCaught, processLogInner, htop, haddr,
    decodeLog_mintedLog toA tokenId bword levels hb, erc721_self_type, hnone,
    levelsToRecs_ok levels hlv, List.nil_append, hsave]

/-- The `TicketResolved` branch mutates (not replaces) the existing
MintingDetails record in place: levels untouched, rollResult and payout
overwritten, one update broadcast. -/
theorem processLogCaught_resolved (txHash : String) (tokenId roll win : Nat) (s : St)
    (rec : MintingRec) (l1 : List MintingRec)
    (hmd : s.mintingDetails = l1 ++ [rec])
    (hl1 : l1.find? (fun r => r.tokenId == natToDec tokenId) = none)
    (hrec : rec.tokenId = natToDec tokenId)
    (hroll : roll < 2 ^ 53) :
    processLogCaught txHash (resolvedLog tokenId roll win) s =
      ({ s with mintingDetails := l1 ++
          [{ rec with rollResult := some roll, payout := some (natToDec win) }] },
       [Effect.broadcast "MINTING_DETAILS_UPDATED" (natToDec tokenId)]) := by
  have htop : truthyStr (resolvedLog tokenId roll win).topic0 = some sigTicketResolved := by
    show truthyStr (some sigTicketResolved) = some sigTicketResolved
    decide
  have haddr : (resolvedLog tokenId roll win).address = some erc721Address := rfl
  have htn : toNumber? roll = some roll := by
    simp only [toNumber?]
    rw [if_pos hroll]
  have hfind : s.mintingDetails.find? (fun r => r.tokenId == natToDec tokenId) = some rec := by
    rw [hmd, find?_append_of_none hl1]
    simp [List.find?_cons, hrec]
  have hsave : saveBy (fun r : MintingRec => r.tokenId) (natToDec tokenId)
      { rec with rollResult := some roll, payout := some (natToDec win) }
      s.mintingDetails = l1 ++
        [{ rec with rollResult := some roll, payout := some (natToDec win) }] := by
    rw [hmd, saveBy_append_of_none hl1]
    simp [saveBy, hrec]
  simp only [processLogCaught, processLogInner, htop, haddr,
    decodeLog_resolvedLog tokenId roll win, erc721_self_type, hfind, htn, hsave]

/-- Claim C5: processing a `TicketMinted` log and then a `TicketResolved`
log for the same tokenId yields a single MintingDetails record whose levels
are exactly those of the mint (unchanged by the resolution) and whose rollResult
and payout come from the resolution event. -/
theorem claim5_mint_then_resolve (txHash toA : String) (tokenId bword roll win : Nat)
    (levels : List MintLevel) (s : St)
    (hb : bword = 0 ∨ bword = 1)
    (hroll : roll < 2 ^ 53)
    (hlv : ∀ lv ∈ levels, lv.rollNumber < 2 ^ 53)
    (hnone : s.mintingDetails.find? (fun r => r.tokenId == natToDec tokenId) = none) :
    ((processLogCaught txHash (resolvedLog tokenId roll win)
        (processLogCaught txHash (mintedLog toA tokenId bword levels) s).1).1).mintingDetails.filter
        (fun r => r.tokenId == natToDec tokenId) =
      [⟨natToDec tokenId, levels.map (fun lv => ⟨natToDec lv.winAmount, lv.rollNumber⟩),
        some roll, some (natToDec win), txHash⟩] := by
  rw [processLogCaught_minted txHash toA tokenId bword levels s hb hlv hnone]
  rw [processLogCaught_resolved txHash tokenId roll win _
    ⟨natToDec tokenId, levels.map (fun lv => ⟨natToDec lv.winAmount, lv.rollNumber⟩),
      none, none, txHash⟩ s.mintingDetails rfl hnone rfl hroll]
  rw [List.filter_append, filter_eq_nil_of_find?_none hnone]
  simp

/-- Claim C5 witness: token 7 minted with one level, then resolved with
roll 3 and win 42, from the empty store. -/
theorem claim5_mint_then_resolve_witness :
    ((processLogCaught "0xh" (resolvedLog 7 3 42)
        (processLogCaught "0xh" (mintedLog "0xA" 7 1 [⟨2, 50, 100⟩]) stEmpty).1).1).mintingDetails.filter
        (fun r => r.tokenId == natToDec 7) =
      [⟨natToDec 7, [⟨natToDec 100, 2⟩], some 3, some (natToDec 42), "0xh"⟩] :=
  claim5_mint_then_resolve "0xh" "0xA" 7 1 3 42 [⟨2, 50, 100⟩] stEmpty
    (Or.inr rfl) (by decide) (by decide) rfl

/-! ### Duplicate-tokenId asymmetry (C6) -/

theorem applyHoldingTransfer_nonzero (tokenId from_ to_ : String) (holds : List HoldingRec)
    (hfz : from_ ≠ zeroAddress)
    (hcnt : holds.countP (fun x => x.tokenId == tokenId) ≤ 1) :
    applyHoldingTransfer tokenId from_ to_ holds =
      .ok ((holds.eraseP fun x => x.tokenId == tokenId) ++ [⟨tokenId, strToLower to_⟩]) := by
  have hfz' : (from_ == zeroAddress) = false := by
    rw [beq_eq_false_iff_ne]
    exact hfz
  have h0 := countP_eraseP_eq_zero hcnt
  have hany := any_eq_false_of_countP_eq_zero h0
  simp [applyHoldingTransfer, hfz', hany]

/-- Claim C6: within one payload, two `nftTransfers` entries with the same
tokenId on the ERC404 contract result in only the first being applied (the
`processedTokenIds` set suppresses the duplicate, so the surviving owner is
the first recipient), while on the ERC721 contract both are applied (the
set is never updated there, so the surviving owner is the second
recipient). -/
theorem claim6_dedup_asymmetry (tid f1 t1 f2 t2 : String) (s : St)
    (htid : tid ≠ "")
    (hf1 : f1 ≠ "") (hf1z : f1 ≠ zeroAddress)
    (hf2 : f2 ≠ "") (hf2z : f2 ≠ zeroAddress)
    (ht1 : t1 ≠ "") (ht2 : t2 ≠ "")
    (hinv404 : ∀ t, s.erc404NFT.countP (fun x => x.tokenId == t) ≤ 1)
    (hinv721 : ∀ t, s.erc721Holding.countP (fun x => x.tokenId == t) ≤ 1) :
    (∃ s', processNftTransfers
        [nftEntry erc404Address tid f1 t1, nftEntry erc404Address tid f2 t2] [] s = .ok s' ∧
      s'.erc404NFT.filter (fun x => x.tokenId == tid) = [⟨tid, strToLower t1⟩]) ∧
    (∃ s', processNftTransfers
        [nftEntry erc721Address tid f1 t1, nftEntry erc721Address tid f2 t2] [] s = .ok s' ∧
      s'.erc721Holding.filter (fun x => x.tokenId == tid) = [⟨tid, strToLower t2⟩]) := by
  have htid' : (tid == "") = false := by rw [beq_eq_false_iff_ne]; exact htid
  have hf1' : (f1 == "") = false := by rw [beq_eq_false_iff_ne]; exact hf1
  have hf2' : (f2 == "") = false := by rw [beq_eq_false_iff_ne]; exact hf2
  have ht1' : (t1 == "") = false := by rw [beq_eq_false_iff_ne]; exact ht1
  have ht2' : (t2 == "") = false := by rw [beq_eq_false_iff_ne]; exact ht2
  have hc404 : (erc404Address == "") = false := by decide
  have hc721 : (erc721Address == "") = false := by decide
  have h404not721 : (strToLower erc404Address == strToLower erc721Address) = false := by decide
  have h721not404 : (strToLower erc721Address == strToLower erc404Address) = false := by decide
  constructor
  · -- ERC404: duplicate suppressed
    have h0 : (s.erc404NFT.eraseP fun x => x.tokenId == tid).countP
        (fun x => x.tokenId == tid) = 0 := countP_eraseP_eq_zero (hinv404 tid)
    refine ⟨{ s with erc404NFT := (s.erc404NFT.eraseP fun x => x.tokenId == tid) ++
        [⟨tid, strToLower t1⟩] }, ?_, ?_⟩
    · simp only [processNftTransfers, nftEntry, truthyStr, htid', hf1', hf2', ht1', ht2',
        hc404, h404not721, Bool.false_eq_true, if_false,
        applyHoldingTransfer_nonzero tid f1 t1 s.erc404NFT hf1z (hinv404 tid)]
      simp [List.contains]
    · rw [List.filter_append, filter_eq_nil_of_countP_eq_zero h0]
      simp
  · -- ERC721: both applied
    have h0 : (s.erc721Holding.eraseP fun x => x.tokenId == tid).countP
        (fun x => x.tokenId == tid) = 0 := countP_eraseP_eq_zero (hinv721 tid)
    have hl1cnt : ((s.erc721Holding.eraseP fun x => x.tokenId == tid) ++
        [(⟨tid, strToLower t1⟩ : HoldingRec)]).countP (fun x => x.tokenId == tid) ≤ 1 := by
      rw [List.countP_append, h0]
      simp
    have h0' : (((s.erc721Holding.eraseP fun x => x.tokenId == tid) ++
        [(⟨tid, strToLower t1⟩ : HoldingRec)]).eraseP
          (fun x => x.tokenId == tid)).countP (fun x => x.tokenId == tid) = 0 :=
      countP_eraseP_eq_zero hl1cnt
    refine ⟨{ s with erc721Holding :=
        (((s.erc721Holding.eraseP fun x => x.tokenId == tid) ++
          [({ tokenId := tid, owner := strToLower t1 } : HoldingRec)]).eraseP
            (fun x : HoldingRec => x.tokenId == tid)) ++
        [({ tokenId := tid, owner := strToLower t2 } : HoldingRec)] }, ?_, ?_⟩
    · simp only [processNftTransfers, nftEntry, truthyStr, htid', hf1', hf2', ht1', ht2',
        hc721, Bool.false_eq_true, if_false,
        applyHoldingTransfer_nonzero tid f1 t1 s.erc721Holding hf1z (hinv721 tid),
        applyHoldingTransfer_nonzero tid f2 t2 _ hf2z hl1cnt]
      simp [List.contains]
    · rw [List.filter_append, filter_eq_nil_of_countP_eq_zero h0']
      simp

/-- Claim C6 witness: token "5" transferred twice in one payload, on each
contract class, starting from a single-owner store. -/
theorem claim6_dedup_asymmetry_witness :
    (∃ s', processNftTransfers
        [nftEntry erc404Address "5" "0xF1" "0xB1", nftEntry erc404Address "5" "0xF1" "0xB2"]
        [] ⟨[], [⟨"5", "0xz"⟩], [⟨"5", "0xz"⟩], [], [], []⟩ = .ok s' ∧
      s'.erc404NFT.filter (fun x => x.tokenId == "5") = [⟨"5", strToLower "0xB1"⟩]) ∧
    (∃ s', processNftTransfers
        [nftEntry erc721Address "5" "0xF1" "0xB1", nftEntry erc721Address "5" "0xF1" "0xB2"]
        [] ⟨[], [⟨"5", "0xz"⟩], [⟨"5", "0xz"⟩], [], [], []⟩ = .ok s' ∧
      s'.erc721Holding.filter (fun x => x.tokenId == "5") = [⟨"5", strToLower "0xB2"⟩]) :=
  claim6_dedup_asymmetry "5" "0xF1" "0xB1" "0xF1" "0xB2" _
    (by decide) (by decide) (by decide) (by decide) (by decide) (by decide) (by decide)
    (fun t => le_trans (List.countP_le_length _) (by decide))
    (fun t => le_trans (List.countP_le_length _) (by decide))

/-! ### Effect ordering (C8) -/

theorem processLogInner_no_mark (txHash : String) (l : RawLog) (s : St)
    (r : St × List Effect) (h : processLogInner txHash l s = .ok r) :
    ∀ e ∈ r.2, isMarkProcessed e = false := by
  simp only [processLogInner] at h
  repeat' split at h
  all_goals first
    | (cases h; intro e he; exact absurd he (List.not_mem_nil e))
    | (cases h; intro e he; simp only [List.mem_singleton] at he; subst he; rfl)
    | cases h

theorem processLogs_no_mark (txHash : String) (ls : List RawLog) (s : St) :
    ∀ e ∈ (processLogs txHash ls s).2, isMarkProcessed e = false := by
  induction ls generalizing s with
  | nil =>
    intro e he
    simp [processLogs] at he
  | cons l rest ih =>
    intro e he
    simp only [processLogs] at he
    rw [List.mem_append] at he
    rcases he with he | he
    · rcases hc : processLogInner txHash l s with s' | r
      · simp [processLogCaught, hc] at he
      · simp only [processLogCaught, hc] at he
        exact processLogInner_no_mark txHash l s r hc e he
    · exact ih _ e he

/-- Claim C8 corrected: the `ProcessedTransaction` record is created only
after all notifier fan-out of the run; equivalently, the mark-processed
effect is never followed by any effect, so every broadcast precedes it. -/
theorem claim8_mark_is_last (p : Payload) (s : St) :
    ∀ e ∈ (webhook p s).2.2.dropLast, isMarkProcessed e = false := by
  rcases heq : webhookInner p s with s' | r
  · simp [webhook, heq]
  · simp only [webhook, heq]
    simp only [webhookInner] at heq
    split at heq
    · cases heq; simp
    · split at heq
      · cases heq; simp
      · split at heq
        · cases heq; simp
        · split at heq
          · cases heq; simp
          · split at heq
            · cases heq
            · split at heq
              · cases heq
              · split at heq
                · cases heq
                · cases heq
                  intro e he
                  rw [List.dropLast_concat] at he
                  exact processLogs_no_mark _ _ _ e he

/-- Claim C8 witness for the corrected statement: in the concrete run the
only non-final effect is the broadcast, not a mark. -/
theorem claim8_mark_is_last_witness :
    isMarkProcessed (Effect.broadcast "MINTING_DETAILS_UPDATED" "7") = false :=
  claim8_mark_is_last cexPayload stEmpty
    (Effect.broadcast "MINTING_DETAILS_UPDATED" "7") (by decide)

/-- Claim C8 counterexample: a successfully processed webhook whose
`MINTING_DETAILS_UPDATED` broadcast happens strictly before the
`ProcessedTransaction` record is created, refuting the claimed
mark-before-fan-out ordering. -/
theorem claim8_counterexample :
    (webhook cexPayload stEmpty).1.message = "Holdings updated successfully" ∧
    ¬ markPrecedesBroadcasts (webhook cexPayload stEmpty).2.2 := by
  constructor
  · decide
  · intro hcl
    have h01 : isBroadcastMD ((webhook cexPayload stEmpty).2.2.get ⟨0, by decide⟩) = true := by
      decide
    have h11 : isMarkProcessed ((webhook cexPayload stEmpty).2.2.get ⟨1, by decide⟩) = true := by
      decide
    have hlt := hcl ⟨0, by decide⟩ ⟨1, by decide⟩ h01 h11
    exact absurd hlt (by decide)

/-! ### Idempotency (C1) -/

theorem contains_false_not_mem {l : List String} {a : String}
    (h : l.contains a = false) : a ∉ l := by
  intro hm
  simp [List.elem_eq_mem, hm] at h

theorem contains_true_of_mem {l : List String} {a : String} (h : a ∈ l) :
    l.contains a = true := by
  simp [List.elem_eq_mem, h]

/-- The NFT-transfer loop touches only the two holding stores. -/
theorem processNftTransfers_processed (ts : List NftTransfer) :
    ∀ ptids s s', processNftTransfers ts ptids s = .ok s' →
      s'.processedTransactions = s.processedTransactions := by
  induction ts with
  | nil =>
    intro ptids s s' h
    cases h
    rfl
  | cons t rest ih =>
    intro ptids s s' h
    simp only [processNftTransfers] at h
    repeat' split at h
    all_goals first
      | (have hh := ih _ _ _ h; exact hh)
      | cases h

/-- The ERC20-transfer loop touches only the fungible-balance store. -/
theorem processErc20Transfers_processed (ts : List Erc20Transfer) :
    ∀ s s', processErc20Transfers ts s = .ok s' →
      s'.processedTransactions = s.processedTransactions := by
  induction ts with
  | nil =>
    intro s s' h
    cases h
    rfl
  | cons t rest ih =>
    intro s s' h
    simp only [processErc20Transfers] at h
    repeat' split at h
    all_goals first
      | (have hh := ih _ _ h; exact hh)
      | cases h

/-- One per-log step touches only openings and minting details. -/
theorem processLogInner_processed (txHash : String) (l : RawLog) (s : St) :
    (∀ r, processLogInner txHash l s = .ok r →
      r.1.processedTransactions = s.processedTransactions) ∧
    (∀ s', processLogInner txHash l s = .error s' →
      s'.processedTransactions = s.processedTransactions) := by
  constructor <;>
    (intro r h
     simp only [processLogInner] at h
     repeat' split at h
     all_goals first
       | (cases h; rfl)
       | cases h)

theorem processLogs_processed (txHash : String) (ls : List RawLog) :
    ∀ s, (processLogs txHash ls s).1.processedTransactions = s.processedTransactions := by
  induction ls with
  | nil =>
    intro s
    rfl
  | cons l rest ih =>
    intro s
    simp only [processLogs]
    rw [ih]
    rcases hc : processLogInner txHash l s with s' | r
    · simp only [processLogCaught, hc]
      exact (processLogInner_processed txHash l s).2 s' hc
    · simp only [processLogCaught, hc]
      exact (processLogInner_processed txHash l s).1 r hc

/-- Claim C1: a successfully processed webhook records its transaction hash
exactly once (the hash was previously unseen, as the handler checked before
applying any effect), and reprocessing the same payload afterwards returns
early with the already-processed response, changing nothing and emitting no
effect. -/
theorem claim1_idempotent_reprocessing (p : Payload) (s : St)
    (hmsg : (webhook p s).1.message = "Holdings updated successfully") :
    ∃ txh : String, firstTxHash p = some txh ∧
      txh ∉ s.processedTransactions ∧
      (webhook p s).2.1.processedTransactions.count txh = 1 ∧
      webhook p (webhook p s).2.1 =
        (⟨200, "Transaction already processed"⟩, (webhook p s).2.1, []) := by
  rcases heq : webhookInner p s with s' | r
  · have hw : webhook p s =
        (⟨200, "Error occurred but returning 200 to prevent retries"⟩, s', []) := by
      simp [webhook, heq]
    rw [hw] at hmsg
    simp at hmsg
  · have hw : webhook p s = r := by simp [webhook, heq]
    rw [hw] at hmsg ⊢
    simp only [webhookInner] at heq
    split at heq
    · cases heq
      simp at hmsg
    · rename_i hconf
      split at heq
      · cases heq
        simp at hmsg
      · rename_i txh hfx
        split at heq
        · cases heq
          simp at hmsg
        · rename_i hcont
          split at heq
          · cases heq
            simp at hmsg
          · rename_i hguard
            split at heq
            · cases heq
            · rename_i s1 hnft
              split at heq
              · cases heq
              · rename_i s2 herc
                split at heq
                · cases heq
                · rename_i hct
                  cases heq
                  have hps3 : (processLogs txh p.logs s2).1.processedTransactions =
                      s.processedTransactions := by
                    rw [processLogs_processed, processErc20Transfers_processed _ _ _ herc,
                      processNftTransfers_processed _ _ _ _ hnft]
                  have hcont' : s.processedTransactions.contains txh = false := by
                    simp_all
                  have hnotmem : txh ∉ s.processedTransactions :=
                    contains_false_not_mem hcont'
                  refine ⟨txh, hfx, hnotmem, ?_, ?_⟩
                  · show ((processLogs txh p.logs s2).1.processedTransactions ++
                      [txh]).count txh = 1
                    rw [hps3, List.count_append, List.count_eq_zero.mpr hnotmem]
                    simp
                  · have hcm : ((processLogs txh p.logs s2).1.processedTransactions ++
                        [txh]).contains txh = true :=
                      contains_true_of_mem (List.mem_append_right _ (by simp))
                    have hsecond : webhookInner p
                        ({ (processLogs txh p.logs s2).1 with processedTransactions :=
                          (processLogs txh p.logs s2).1.processedTransactions ++ [txh] }) =
                        .ok (⟨200, "Transaction already processed"⟩,
                          { (processLogs txh p.logs s2).1 with processedTransactions :=
                            (processLogs txh p.logs s2).1.processedTransactions ++ [txh] },
                          []) := by
                      simp only [webhookInner]
                      rw [if_neg hconf]
                      simp only [hfx]
                      rw [if_pos hcm]
                    simp [webhook, hsecond]

/-- Claim C1 witness: the concrete successful run is not reprocessed. -/
theorem claim1_idempotent_reprocessing_witness :
    ∃ txh : String, firstTxHash cexPayload = some txh ∧
      txh ∉ stEmpty.processedTransactions ∧
      (webhook cexPayload stEmpty).2.1.processedTransactions.count txh = 1 ∧
      webhook cexPayload (webhook cexPayload stEmpty).2.1 =
        (⟨200, "Transaction already processed"⟩, (webhook cexPayload stEmpty).2.1, []) :=
  claim1_idempotent_reprocessing cexPayload stEmpty (by decide)

end FortuneBackend
